import Mathlib

/-!
Verification development for the job-application assistant repository
(batch orchestration, rate-limit classification, search aggregation,
rerank adapter, match-scorer orchestration, and the PDF layout engine's
Q&A parsing and footer pass).

JavaScript/TypeScript code is shallowly embedded: JS strings are Lean
`String`s manipulated through their `List Char` data (so every operation
reduces in the kernel), JS `undefined`/`null` fields are `Option`s,
thrown exceptions are `Except`, and external collaborators (HTTP
providers) are explicit function parameters.
-/

/-! ## JS string primitives, implemented over `List Char` -/

/-- Lower-casing, as `String.prototype.toLowerCase` (ASCII-adequate). -/
def lowerStr (s : String) : String := ⟨s.data.map Char.toLower⟩

/-- Trim whitespace from both ends of a character list. -/
def trimL (l : List Char) : List Char :=
  ((l.dropWhile Char.isWhitespace).reverse.dropWhile Char.isWhitespace).reverse

/-- JS `String.prototype.trim`. -/
def trimStr (s : String) : String := ⟨trimL s.data⟩

/-- Does the first list start with the second? -/
def startsWithL : List Char → List Char → Bool
  | _, [] => true
  | [], _ :: _ => false
  | a :: as, b :: bs => a == b && startsWithL as bs

/-- Contiguous-substring test on character lists. -/
def containsL : List Char → List Char → Bool
  | [], needle => needle.isEmpty
  | hay@(_ :: t), needle => startsWithL hay needle || containsL t needle

/-- JS `String.prototype.includes`. -/
def containsSub (hay needle : String) : Bool := containsL hay.data needle.data

/-- JS `String.prototype.slice(0, n)` (character-counted). -/
def takeS (s : String) (n : Nat) : String := ⟨s.data.take n⟩

/-- Drop the first `n` characters. -/
def dropS (s : String) (n : Nat) : String := ⟨s.data.drop n⟩

/-- JS `String.prototype.length` (character-counted). -/
def lenS (s : String) : Nat := s.data.length

/-- Does the first string end with the second? -/
def endsWithS (s suffix : String) : Bool :=
  startsWithL s.data.reverse suffix.data.reverse

/-- JS `a || b` on an optional string: a missing or empty (falsy) string
falls through to the default. -/
def jsOr (o : Option String) (d : String) : String :=
  match o with
  | some s => if s = "" then d else s
  | none => d

/-! ## src/server/batch/utils.ts — `isRateLimitError`

A JS error value is modelled by the fields the function reads; a field
that is `undefined` or `null` in JS is `none` here.  The classifier's
input is `Option JsErrorObj`, with `none` standing for a `null`/
`undefined` argument (the `if (!err)` guard). -/

/-- The nested `err.response` object, as read by `isRateLimitError`. -/
structure JsResponse where
  status : Option Int := none
  statusCode : Option Int := none
deriving DecidableEq

/-- The fields of a JS error value that `isRateLimitError` inspects. -/
structure JsErrorObj where
  status : Option Int := none
  statusCode : Option Int := none
  response : Option JsResponse := none
  message : Option String := none
  error : Option String := none
deriving DecidableEq

/-- The nullish-coalescing chain
`err.status ?? err.statusCode ?? err.response?.status ?? err.response?.statusCode`. -/
def firstStatus (e : JsErrorObj) : Option Int :=
  match e.status with
  | some v => some v
  | none =>
    match e.statusCode with
    | some v => some v
    | none =>
      match e.response with
      | some r =>
        match r.status with
        | some v => some v
        | none => r.statusCode
      | none => none

/-- `String(err.message || err.error || "")`. -/
def msgText (e : JsErrorObj) : String := jsOr e.message (jsOr e.error "")

/-- `isRateLimitError` from src/server/batch/utils.ts. -/
def isRateLimitError : Option JsErrorObj → Bool
  | none => false
  | some e =>
    if firstStatus e = some 429 then true
    else
      let msg := lowerStr (msgText e)
      containsSub msg "rate limit" ||
      containsSub msg "too many requests" ||
      containsSub msg "quota"

/-! ## src/server/batch/utils.ts — `batchProcess` / `batchProcessWithSSE`

A unit of work is a handler applied to an item and its index; each
invocation may be retried, so the handler's behaviour is given per
attempt: `f attempt` is the outcome of the attempt numbered `attempt`
(0-based).  `pRetryModel` is modelled from the spec (section 4.1): the
`p-retry` dependency is not part of this repository; as configured here
(`onFailedAttempt` rethrows any error the classifier rejects) it makes
at most `retries` additional attempts, and only after failures that
`isRateLimitError` classifies as transient. -/

/-- Modelled from the spec: one run of the `p-retry` loop with `fuel`
retries remaining, currently at attempt number `attempt`.  A failure the
classifier rejects is rethrown by `onFailedAttempt` and aborts at once;
a rate-limit failure consumes one unit of retry budget; an exhausted
budget propagates the last error. -/
def pRetryGo {R : Type} (f : Nat → Except JsErrorObj R) :
    Nat → Nat → Except JsErrorObj R
  | 0, attempt =>
    match f attempt with
    | .ok r => .ok r
    | .error e => .error e
  | fuel + 1, attempt =>
    match f attempt with
    | .ok r => .ok r
    | .error e =>
      if isRateLimitError (some e) then pRetryGo f fuel (attempt + 1)
      else .error e

/-- Modelled from the spec: `pRetry(fn, {retries, onFailedAttempt})` as
configured by both batch runners. -/
def pRetryModel {R : Type} (f : Nat → Except JsErrorObj R) (retries : Nat) :
    Except JsErrorObj R :=
  pRetryGo f retries 0

/-- Recursion for `batchProcess`: each item at absolute index `i` runs
its retried unit of work; the first rejection makes the whole
`Promise.all` reject (strict mode), otherwise the success values are
collected at their input indices. -/
def batchProcessGo {T R : Type} (handler : T → Nat → Nat → Except JsErrorObj R)
    (retries : Nat) : Nat → List T → Except JsErrorObj (List R)
  | _, [] => .ok []
  | i, item :: rest =>
    match pRetryModel (handler item i) retries with
    | .error e => .error e
    | .ok r =>
      match batchProcessGo handler retries (i + 1) rest with
      | .error e => .error e
      | .ok rs => .ok (r :: rs)

/-- `batchProcess` from src/server/batch/utils.ts (strict mode).  The
handler takes the item, its index, and — because it can be re-invoked by
the retry loop — the attempt number.  Concurrency affects only timing:
`results[index] = result` slots every success at its input index, which
this sequential-by-index embedding reproduces. -/
def batchProcess {T R : Type} (items : List T)
    (handler : T → Nat → Nat → Except JsErrorObj R) (retries : Nat) :
    Except JsErrorObj (List R) :=
  batchProcessGo handler retries 0 items

/-- One slot of the lenient (SSE) result array: the handler's success
value, or the captured `{ok: false, error}` record. -/
inductive SseSlot (R : Type) where
  | ok (value : R)
  | fail (error : String)
deriving DecidableEq

/-- `err?.message || "Failed"` — the error string captured into a
lenient slot. -/
def errMessage (e : JsErrorObj) : String := jsOr e.message "Failed"

/-- How `batchProcessWithSSE`'s `try`/`catch` turns a unit of work's
final outcome into its slot. -/
def slotOf {R : Type} : Except JsErrorObj R → SseSlot R
  | .ok r => .ok r
  | .error e => .fail (errMessage e)

/-- Recursion for `batchProcessWithSSE` over items, `i` the absolute
index of the first one. -/
def batchProcessWithSSEGo {T R : Type}
    (handler : T → Nat → Nat → Except JsErrorObj R) (retries : Nat) :
    Nat → List T → List (SseSlot R)
  | _, [] => []
  | i, item :: rest =>
    slotOf (pRetryModel (handler item i) retries) ::
      batchProcessWithSSEGo handler retries (i + 1) rest

/-- `batchProcessWithSSE` from src/server/batch/utils.ts (lenient mode):
every item produces a slot, failure or not. -/
def batchProcessWithSSE {T R : Type} (items : List T)
    (handler : T → Nat → Nat → Except JsErrorObj R) (retries : Nat) :
    List (SseSlot R) :=
  batchProcessWithSSEGo handler retries 0 items

/-- The shared `done` counter: each completion performs `done++` and then
reports `{done, total}`.  The list argument is the sequence of completion
events in completion order (its elements are irrelevant; JS's
single-threaded execution makes the increment-and-report atomic). -/
def progressTraceGo (total : Nat) : Nat → List Nat → List (Nat × Nat)
  | _, [] => []
  | done, _ :: rest => (done + 1, total) :: progressTraceGo total (done + 1) rest

/-- The full sequence of `onProgress` payloads for a run whose
completions happen in the given order. -/
def progressTrace (total : Nat) (completions : List Nat) : List (Nat × Nat) :=
  progressTraceGo total 0 completions

/-! ## Concurrency gate (claim C9)

Modelled from the spec: the `p-limit` dependency (not part of this
repository) is the gate `limit(...)` wraps every unit of work in; the
spec (sections 4.1 and 5) states that at most `concurrency` wrapped
functions are in flight at once, the rest queueing until a slot frees.
The scheduler is given as a step relation: a queued unit may start only
while strictly fewer than `limit` units are active. -/

/-- A scheduler configuration: units not yet started, units in flight
(started, not yet resolved), units resolved. -/
structure SchedState where
  pending : Nat
  active : Nat
  resolved : Nat
deriving DecidableEq

/-- One scheduler transition: `start` admits a queued unit only below
the concurrency ceiling; `finish` resolves an in-flight unit. -/
inductive SchedStep (limit : Nat) : SchedState → SchedState → Prop where
  | start (p a d : Nat) : a < limit →
      SchedStep limit ⟨p + 1, a, d⟩ ⟨p, a + 1, d⟩
  | finish (p a d : Nat) :
      SchedStep limit ⟨p, a + 1, d⟩ ⟨p, a, d + 1⟩

/-- Reachability along scheduler transitions. -/
inductive SchedReach (limit : Nat) : SchedState → SchedState → Prop where
  | refl (s : SchedState) : SchedReach limit s s
  | tail {s t u : SchedState} : SchedReach limit s t → SchedStep limit t u →
      SchedReach limit s u

/-- The batch runner's initial state for `N` items: all queued, none
started. -/
def batchInit (N : Nat) : SchedState := ⟨N, 0, 0⟩

/-! ## src/server/serper.ts — data type shared with the rerank adapter -/

/-- `JobSearchItem` from src/server/serper.ts. -/
structure JobSearchItem where
  title : String
  company : String
  location : String
  description : String
  url : String
  date : Option String := none
deriving DecidableEq

/-! ## src/server/jina.ts — rerank adapter

The Jina HTTP provider is an explicit parameter: applying it models
`axios.post`, its `Except.error` a rejected request (network failure,
non-2xx, timeout), and its `Except.ok` the parsed
`Array.isArray(res.data?.results) ? res.data.results : []` list.  The
`JINA_API_KEY` environment variable is the `key` parameter
(`none` = unset).  `relevance_score` is carried as an integer score;
claim C4 only exercises paths that never compare scores. -/

/-- One entry of the reranker's response. -/
structure RankResult where
  index : Nat
  relevance_score : Int
deriving DecidableEq

/-- The request body `rerankWithJina` posts. -/
structure JinaReq where
  model : String
  query : String
  documents : List String
  top_n : Nat
deriving DecidableEq

/-- The model name constant from src/server/jina.ts. -/
def JINA_MODEL : String := "jina-reranker-v2-base-multilingual"

/-- `rerankWithJina` from src/server/jina.ts: missing key or empty
document list short-circuit to `[]`; otherwise the provider is called
and its outcome (including a thrown error) is returned as-is. -/
def rerankWithJina (key : Option String)
    (provider : JinaReq → Except String (List RankResult))
    (query : String) (documents : List String) (topN : Option Nat) :
    Except String (List RankResult) :=
  match key with
  | none => .ok []
  | some _ =>
    if documents.length = 0 then .ok []
    else
      provider
        { model := JINA_MODEL
          query := takeS query 400
          documents := documents.map (fun d => takeS d 2000)
          top_n := min (topN.getD 20) documents.length }

/-- The document built for one job:
`` `${t}\n${c}\n${l}\n${d}`.slice(0, 1800) ``. -/
def jobDoc (j : JobSearchItem) : String :=
  takeS (j.title ++ "\n" ++ j.company ++ "\n" ++ j.location ++ "\n" ++ j.description) 1800

/-- Lookup in the `byIndex` map: `Map.set` overwrites, so the score of
the LAST ranked entry with a given index wins. -/
def lastScore : List RankResult → Nat → Option Int
  | [], _ => none
  | r :: rest, idx =>
    match lastScore rest idx with
    | some v => some v
    | none => if r.index = idx then some r.relevance_score else none

/-- Stable descending insertion by score: an element is placed before
the first strictly-smaller score, preserving arrival order on ties
(the behaviour of the stable JS `sort((a, b) => b.score - a.score)`). -/
def insertByScoreDesc (x : JobSearchItem × Int) :
    List (JobSearchItem × Int) → List (JobSearchItem × Int)
  | [] => [x]
  | y :: ys => if y.2 < x.2 then x :: y :: ys else y :: insertByScoreDesc x ys

/-- Stable sort by descending score. -/
def sortByScoreDesc (l : List (JobSearchItem × Int)) : List (JobSearchItem × Int) :=
  l.foldr insertByScoreDesc []

/-- Pair each job with its index, starting at `i`. -/
def withIdxFrom {A : Type} : Nat → List A → List (A × Nat)
  | _, [] => []
  | i, a :: rest => (a, i) :: withIdxFrom (i + 1) rest

/-- `rerankJobsWithJina` from src/server/jina.ts. -/
def rerankJobsWithJina (key : Option String)
    (provider : JinaReq → Except String (List RankResult))
    (query : String) (jobs : List JobSearchItem) :
    Except String (List JobSearchItem) :=
  if jobs.length ≤ 1 then .ok jobs
  else
    let documents := jobs.map jobDoc
    match rerankWithJina key provider query documents (some (min 20 documents.length)) with
    | .error e => .error e
    | .ok ranked =>
      if ranked.length = 0 then .ok jobs
      else
        .ok ((sortByScoreDesc ((withIdxFrom 0 jobs).map
          (fun p => (p.1, (lastScore ranked p.2).getD (-1))))).map Prod.fst)

/-! ## src/client/src/components/apply/MatchStep.tsx

`uid()` is `crypto.randomUUID()`: a fresh identifier, never equal to any
previously generated one; ids are modelled as naturals handed to
`matchOne` by a strictly increasing counter, so freshness is "distinct
from every id in the previously displayed list".  The `/api/jobs/match`
call is a parameter outcome: `Except.ok` a parsed `MatchResult`,
`Except.error` a thrown error carrying `err?.message`
(`none` = no message).  The `catch`-branch's extra plain `fetch` probe
only refines the failure message, so it is a three-valued parameter. -/

/-- `seniorityFit` values. -/
inductive SeniorityFit where
  | perfect
  | good
  | average
  | poor
deriving DecidableEq

/-- `SearchResult` as consumed by `matchOne`. -/
structure SearchResult where
  title : String
  company : String
  location : String
  description : String
  url : String
deriving DecidableEq

/-- The parsed `/api/jobs/match` response; every field may be absent
(the code defaults each with `??`). -/
structure MatchResult where
  matchPercentage : Option Int := none
  matchingSkills : Option (List String) := none
  missingSkills : Option (List String) := none
  strengths : Option (List String) := none
  gaps : Option (List String) := none
  analysis : Option String := none
  recommendedKeywords : Option (List String) := none
  salaryRange : Option String := none
  seniorityFit : Option SeniorityFit := none
deriving DecidableEq

/-- `JobMatchItem` as built by `matchOne`. -/
structure JobMatchItem where
  id : Nat
  title : String
  company : String
  location : String
  applyUrl : String
  description : String
  matchPercent : Int
  matchingSkills : List String
  missingSkills : List String
  strengths : List String
  gaps : List String
  analysis : String
  recommendedKeywords : List String
  salaryRange : String
  seniorityFit : SeniorityFit
  selected : Bool
deriving DecidableEq

/-- `shortenFail` from src/client/src/components/apply/MatchStep.tsx. -/
def shortenFail (s : String) : String :=
  let t := trimStr s
  if t = "" then "Unknown"
  else if 200 < lenS t then takeS t 200 ++ "…" else t

/-- Outcome of the `catch`-branch's second, plain `fetch` of
`/api/jobs/match`: it threw, returned `r.ok`, or returned `!r.ok` with
`readErrorMessage(r)`. -/
inductive FetchProbe where
  | threw
  | okResponse
  | notOk (message : String)
deriving DecidableEq

/-- The failure reason `matchOne` reports:
`err?.message || "Match failed"`, replaced by `readErrorMessage(r)` only
when the probe reached a `!r.ok` response. -/
def failReason (errMsg : Option String) (probe : FetchProbe) : String :=
  match probe with
  | .notOk m => m
  | _ => jsOr errMsg "Match failed"

/-- `Math.max(0, Math.min(100, Math.round(x ?? 0)))` (the provider's
percentage is carried as an integer, on which `Math.round` is the
identity). -/
def clampPct (v : Int) : Int := max 0 (min 100 v)

/-- `matchOne` from src/client/src/components/apply/MatchStep.tsx:
success builds a scored item, any failure builds the degraded
zero-score item; both carry a freshly generated id and
`selected := false`. -/
def matchOne (newId : Nat) (job : SearchResult)
    (outcome : Except (Option String) MatchResult) (probe : FetchProbe) :
    JobMatchItem :=
  match outcome with
  | .ok m =>
    { id := newId
      title := job.title
      company := job.company
      location := job.location
      applyUrl := job.url
      description := job.description
      matchPercent := clampPct (m.matchPercentage.getD 0)
      matchingSkills := m.matchingSkills.getD []
      missingSkills := m.missingSkills.getD []
      strengths := m.strengths.getD []
      gaps := m.gaps.getD []
      analysis := m.analysis.getD ""
      recommendedKeywords := m.recommendedKeywords.getD []
      salaryRange := m.salaryRange.getD "N/A"
      seniorityFit := m.seniorityFit.getD .average
      selected := false }
  | .error errMsg =>
    { id := newId
      title := job.title
      company := job.company
      location := job.location
      applyUrl := job.url
      description := job.description
      matchPercent := 0
      matchingSkills := []
      missingSkills := []
      strengths := []
      gaps := []
      analysis := "Match failed: " ++ shortenFail (failReason errMsg probe)
      recommendedKeywords := []
      salaryRange := "N/A"
      seniorityFit := .average
      selected := false }

/-- The `runSearchAndMatchOnce` scoring loop (no mid-run cancellation):
one `matchOne` result per job, ids drawn from the fresh-id counter. -/
def matchAll (firstId : Nat) :
    List (SearchResult × Except (Option String) MatchResult × FetchProbe) →
    List JobMatchItem
  | [] => []
  | (job, outcome, probe) :: rest =>
    matchOne firstId job outcome probe :: matchAll (firstId + 1) rest

/-- `new Map(jobs.map(j => [j.id, j]))` keeps the LAST item with each
id; this is that map's lookup. -/
def lastWithId : List JobMatchItem → Nat → Option JobMatchItem
  | [], _ => none
  | j :: rest, i =>
    match lastWithId rest i with
    | some p => some p
    | none => if j.id = i then some j else none

/-- The merge step of `mergeKeepSelected`: each incoming item adopts the
`selected` flag of the previously displayed item with the same id, when
one exists. -/
def mergeCore (jobs next : List JobMatchItem) : List JobMatchItem :=
  next.map (fun j =>
    match lastWithId jobs j.id with
    | some prev => { j with selected := prev.selected }
    | none => j)

/-- Stable descending insertion by `matchPercent` (the stable JS
`sort((a, b) => (b.matchPercent ?? 0) - (a.matchPercent ?? 0))`). -/
def insertByMatchDesc (x : JobMatchItem) : List JobMatchItem → List JobMatchItem
  | [] => [x]
  | y :: ys =>
    if y.matchPercent < x.matchPercent then x :: y :: ys
    else y :: insertByMatchDesc x ys

/-- Stable sort by descending `matchPercent`. -/
def sortByMatchDesc (l : List JobMatchItem) : List JobMatchItem :=
  l.foldr insertByMatchDesc []

/-- `mergeKeepSelected` from src/client/src/components/apply/MatchStep.tsx. -/
def mergeKeepSelected (jobs next : List JobMatchItem) : List JobMatchItem :=
  sortByMatchDesc (mergeCore jobs next)

/-! ## src/server/serper.ts — multi-source search aggregator

The Serper HTTP provider is an explicit parameter `responses`: for a
query string it yields the `organic` result list (claim C6 concerns
runs in which the requests succeed; a rejected request would propagate,
which the spec notes as an open question).  `new URL(link)` is a
platform primitive: each raw hit carries the parse of its (trimmed)
link — `none` models the constructor throwing, which
`looksLikeJobPosting` maps to `false`. -/

/-- `SiteRule` from src/server/serper.ts. -/
structure SiteRule where
  base : String
  host : String
  includeAnyInUrl : List String
  excludeInUrl : List String
deriving DecidableEq

/-- The fixed `UK_SITES` rule table. -/
def UK_SITES : List SiteRule :=
  [ { base := "https://uk.indeed.com"
      host := "uk.indeed.com"
      includeAnyInUrl := ["viewjob", "clk", "rc/clk", "pagead/clk", "job", "cmp"]
      excludeInUrl := ["career-advice", "salaries", "companies", "interview-questions", "insights"] }
  , { base := "https://www.linkedin.com"
      host := "www.linkedin.com"
      includeAnyInUrl := ["jobs/view", "jobs/collections", "jobs/search"]
      excludeInUrl := ["learning", "feed", "posts", "pulse"] }
  , { base := "https://www.reed.co.uk"
      host := "www.reed.co.uk"
      includeAnyInUrl := ["jobs", "job"]
      excludeInUrl := ["career-advice", "salary", "recruiter", "courses", "blog"] }
  , { base := "https://www.glassdoor.co.uk"
      host := "www.glassdoor.co.uk"
      includeAnyInUrl := ["job-listing", "Job"]
      excludeInUrl := ["Reviews", "Salaries", "Interview", "Overview", "Benefits"] }
  , { base := "https://www.cv-library.co.uk"
      host := "www.cv-library.co.uk"
      includeAnyInUrl := ["job", "jobs"]
      excludeInUrl := ["career-advice", "salary-guide", "blog"] }
  , { base := "https://uk.welcometothejungle.com"
      host := "uk.welcometothejungle.com"
      includeAnyInUrl := ["jobs", "job"]
      excludeInUrl := ["companies", "salaries", "magazine", "articles"] } ]

/-- `safeTrim(s, fallback)`: trim, empty (or absent) falls back. -/
def safeTrimD (s : Option String) (fallback : String) : String :=
  let t := trimStr (s.getD "")
  if t = "" then fallback else t

/-- Replace every maximal run of characters satisfying `p` with the
single character `r` (the `/[,\|]+/g → " "` regex replacement); the
flag records whether the previous character was inside a run. -/
def replaceRunsGo (p : Char → Bool) (r : Char) : Bool → List Char → List Char
  | _, [] => []
  | inRun, c :: rest =>
    if p c then
      if inRun then replaceRunsGo p r true rest
      else r :: replaceRunsGo p r true rest
    else c :: replaceRunsGo p r false rest

/-- State for the `/\s{2,}/g → " "` replacement: no pending whitespace,
one pending whitespace character (kept verbatim if the run stops at
one), or a run of at least two (collapsed to a single space). -/
inductive WsState where
  | noWs
  | oneWs (c : Char)
  | manyWs

/-- The `/\s{2,}/g → " "` regex replacement (runs of two or more
whitespace characters become one space; a lone whitespace character is
left as it is). -/
def collapseWsGo : WsState → List Char → List Char
  | .noWs, [] => []
  | .oneWs w, [] => [w]
  | .manyWs, [] => [' ']
  | .noWs, c :: rest =>
    if c.isWhitespace then collapseWsGo (.oneWs c) rest
    else c :: collapseWsGo .noWs rest
  | .oneWs w, c :: rest =>
    if c.isWhitespace then collapseWsGo .manyWs rest
    else w :: c :: collapseWsGo .noWs rest
  | .manyWs, c :: rest =>
    if c.isWhitespace then collapseWsGo .manyWs rest
    else ' ' :: c :: collapseWsGo .noWs rest

/-- Collapse whitespace runs of length at least two to a single space. -/
def collapseWs (l : List Char) : List Char := collapseWsGo .noWs l

/-- `normalizeQuery` from src/server/serper.ts. -/
def normalizeQuery (q : String) : String :=
  trimStr ⟨collapseWs (replaceRunsGo (fun c => c = ',' || c = '|') ' ' false
    (trimL q.data))⟩

/-- The constant tail of negative search terms in `buildSiteQuery`
(the source joins this fixed array with single spaces). -/
def extraExcludes : String :=
  "-salary -salaries -wage -review -reviews -interview -interviews -blog -article -articles -guide -guides"

/-- `buildSiteQuery` from src/server/serper.ts. -/
def buildSiteQuery (rule : SiteRule) (q : String) : String :=
  let inurlPart :=
    if rule.includeAnyInUrl.length > 0 then
      "(" ++ String.intercalate " OR " (rule.includeAnyInUrl.map (fun x => "inurl:" ++ x)) ++ ")"
    else ""
  let excludePart :=
    if rule.excludeInUrl.length > 0 then
      String.intercalate " " (rule.excludeInUrl.map (fun x => "-inurl:" ++ x))
    else ""
  let rolePart := if lenS q ≤ 80 then "\"" ++ q ++ "\"" else q
  let ukHint := "(UK OR \"United Kingdom\" OR \"Remote UK\" OR \"Remote (UK)\")"
  ⟨collapseWs ("site:" ++ rule.host ++ " " ++ inurlPart ++ " (" ++ rolePart ++ ") " ++
    ukHint ++ " job " ++ excludePart ++ " " ++ extraExcludes).data⟩

/-- The looser per-rule query of the fallback pass. -/
def fallbackQuery (rule : SiteRule) (q : String) : String :=
  "site:" ++ rule.host ++ " \"" ++ q ++ "\" (UK OR \"United Kingdom\" OR \"Remote UK\") job"

/-- The components of a parsed URL that `looksLikeJobPosting` reads. -/
structure UrlParts where
  host : String
  pathname : String
  search : String
deriving DecidableEq

/-- One raw `organic` search hit; `linkUrl` is the `new URL` parse of
the trimmed link (`none` = the constructor throws). -/
structure RawHit where
  link : String
  linkUrl : Option UrlParts := none
  title : Option String := none
  snippet : Option String := none
  date : Option String := none
deriving DecidableEq

/-- `host.replace(/^www\./, "")`. -/
def stripWww (h : String) : String :=
  if startsWithL h.data "www.".data then dropS h 4 else h

/-- The host-acceptance test of `looksLikeJobPosting`: exact host, same
root domain ignoring `www.`, or subdomain variance in either
direction. -/
def hostOk (host ruleHost : String) : Bool :=
  let h := lowerStr host
  let rh := lowerStr ruleHost
  let hn := stripWww h
  let rn := stripWww rh
  h = rh || hn = rn || endsWithS hn ("." ++ rn) || endsWithS rn ("." ++ hn)

/-- `looksLikeJobPosting` from src/server/serper.ts. -/
def looksLikeJobPosting (hit : RawHit) (rule : SiteRule) : Bool :=
  match hit.linkUrl with
  | none => false
  | some u =>
    if hostOk u.host rule.host then
      let path := lowerStr (u.pathname ++ " " ++ u.search)
      if rule.excludeInUrl.any (fun bad => containsSub path (lowerStr bad)) then false
      else rule.includeAnyInUrl.any (fun tok => containsSub path (lowerStr tok))
    else false

/-- `t.split(sep)` keeps at least two parts exactly when `sep` occurs;
its last part is the text after the LAST occurrence.  Returns that
suffix, or `none` when `sep` does not occur. -/
def afterLastOcc (sep : List Char) : List Char → Option (List Char)
  | [] => none
  | c :: rest =>
    match afterLastOcc sep rest with
    | some r => some r
    | none =>
      if startsWithL (c :: rest) sep then some (List.drop sep.length (c :: rest))
      else none

/-- `guessCompanyFromTitle` from src/server/serper.ts. -/
def guessCompanyFromTitle (rawTitle : String) : String :=
  let t := trimStr rawTitle
  match afterLastOcc " - ".data t.data with
  | some r => trimStr ⟨r⟩
  | none =>
    match afterLastOcc " at ".data t.data with
    | some r => trimStr ⟨r⟩
    | none => "Unknown"

/-- Build the `JobSearchItem` pushed for an accepted hit (`link` is the
already-trimmed link). -/
def mkJobItem (loc : String) (link : String) (h : RawHit) : JobSearchItem :=
  let title := safeTrimD h.title "Untitled"
  let snippet := safeTrimD h.snippet ""
  { title := title
    company := guessCompanyFromTitle title
    location := loc
    description := if snippet = "" then "No description available (snippet empty)." else snippet
    url := link
    date := let d := trimStr (h.date.getD ""); if d = "" then none else some d }

/-- The strict accept loop over one rule's hits: skip empty links, skip
links already seen (first occurrence wins), reject hits failing
`looksLikeJobPosting`, record accepted links in `seen`. -/
def collectStrict (rule : SiteRule) (loc : String) :
    List RawHit → List String → List JobSearchItem →
    List String × List JobSearchItem
  | [], seen, acc => (seen, acc)
  | h :: rest, seen, acc =>
    let link := trimStr h.link
    if link = "" then collectStrict rule loc rest seen acc
    else if seen.contains link then collectStrict rule loc rest seen acc
    else if looksLikeJobPosting h rule then
      collectStrict rule loc rest (link :: seen) (acc ++ [mkJobItem loc link h])
    else collectStrict rule loc rest seen acc

/-- The fallback accept loop: identical, except every hit with a fresh
non-empty link is accepted — no `looksLikeJobPosting` filtering. -/
def collectFallback (loc : String) :
    List RawHit → List String → List JobSearchItem →
    List String × List JobSearchItem
  | [], seen, acc => (seen, acc)
  | h :: rest, seen, acc =>
    let link := trimStr h.link
    if link = "" then collectFallback loc rest seen acc
    else if seen.contains link then collectFallback loc rest seen acc
    else collectFallback loc rest (link :: seen) (acc ++ [mkJobItem loc link h])

/-- The strict pass: one scoped query per rule, shared `seen` set and
accumulator across rules. -/
def strictPassGo (responses : String → List RawHit) (q loc : String) :
    List SiteRule → List String → List JobSearchItem →
    List String × List JobSearchItem
  | [], seen, acc => (seen, acc)
  | rule :: rest, seen, acc =>
    let s := collectStrict rule loc (responses (buildSiteQuery rule q)) seen acc
    strictPassGo responses q loc rest s.1 s.2

/-- The fallback pass: one looser query per rule, still deduplicating
through the shared `seen` set. -/
def fallbackPassGo (responses : String → List RawHit) (q loc : String) :
    List SiteRule → List String → List JobSearchItem →
    List String × List JobSearchItem
  | [], seen, acc => (seen, acc)
  | rule :: rest, seen, acc =>
    let s := collectFallback loc (responses (fallbackQuery rule q)) seen acc
    fallbackPassGo responses q loc rest s.1 s.2

/-- The strict pass's results for given inputs (after the source's
query/location normalization). -/
def strictResults (responses : String → List RawHit) (q loc : String) :
    List String × List JobSearchItem :=
  strictPassGo responses q loc UK_SITES [] []

/-- `searchJobsUK` minus the credential check: strict pass, fallback
pass only when the strict pass accepted nothing, capped at 40. -/
def searchJobsUKCore (responses : String → List RawHit) (q0 loc0 : String) :
    List JobSearchItem :=
  let q := normalizeQuery (safeTrimD (some q0) "Software Engineer")
  let loc := safeTrimD (some loc0) "Worldwide"
  let s := strictResults responses q loc
  let final :=
    if s.2.length = 0 then (fallbackPassGo responses q loc UK_SITES s.1 s.2).2
    else s.2
  final.take 40

/-- `searchJobsUK` from src/server/serper.ts; `hasKey` models whether
`SERPER_API_KEY` is set. -/
def searchJobsUK (hasKey : Bool) (responses : String → List RawHit)
    (q loc : String) : Except String (List JobSearchItem) :=
  if hasKey then .ok (searchJobsUKCore responses q loc)
  else .error "SERPER_API_KEY is missing"

/-! ## src/server/services/pdf.ts — Q&A parsing and the footer pass

Two copies of `textToPdfBuffer` exist in the repository:
src/server/services/pdf.ts, whose Q&A branch calls `doc.end()` and
returns BEFORE the footer loop, and the revision in src/unnamed/part_005
(same `// FILE: server/services/pdf.ts` header), whose footer loop runs
unconditionally after either branch.  Both are embedded.

PDFKit geometry is abstracted: the page's printable top and bottom and
each drawn block's reserved height (`ensureSpace(doc, px)`) and vertical
advance are parameters, since actual text heights come from font
metrics inside PDFKit.  What is embedded faithfully is the page-break
rule (`doc.y + px > bottom → addPage`), the `bufferedPageRange` count
taken only after all content is placed, and the footer loop's stamped
strings. -/

/-- Rendering mode of `textToPdfBuffer`. -/
inductive PdfMode where
  | resume
  | cover
  | qa
  | auto
deriving DecidableEq

/-- `detectQA` from src/server/services/pdf.ts: at least three `q:` and
three `a:` prefixed lines (case-insensitive, after trimming). -/
def detectQA (lines : List String) : Bool :=
  3 ≤ (lines.filter (fun raw => startsWithL (lowerStr (trimStr raw)).data "q:".data)).length &&
  3 ≤ (lines.filter (fun raw => startsWithL (lowerStr (trimStr raw)).data "a:".data)).length

/-- `forcedMode === "qa" || (forcedMode === "auto" && detectQA(lines))`. -/
def qaModeOf (forced : PdfMode) (lines : List String) : Bool :=
  forced = PdfMode.qa || (forced = PdfMode.auto && detectQA lines)

/-- `/^q:\s*/i.test(line)` on an already-trimmed line. -/
def isQLine (line : String) : Bool := startsWithL (lowerStr line).data "q:".data

/-- `/^a:\s*/i.test(line)` on an already-trimmed line. -/
def isALine (line : String) : Bool := startsWithL (lowerStr line).data "a:".data

/-- `line.replace(/^[qa]:\s*/i, "").trim()`: past the two marker
characters, with surrounding whitespace trimmed. -/
def qaMarkerText (line : String) : String := trimStr (dropS line 2)

/-- The `flush` closure of `parseQA`: a pair is emitted only when both
the question and the answer are non-empty after trimming. -/
def flushPair (q a : String) : List (String × String) :=
  if trimStr q ≠ "" ∧ trimStr a ≠ "" then [(trimStr q, trimStr a)] else []

/-- The scan of `parseQA`: `q`/`a` are the open question and answer
accumulators. A `Q:` line flushes and opens a new pair; an `A:` line
ASSIGNS the answer accumulator (discarding any answer text accumulated
so far in this pair); other non-blank lines are appended, space-joined,
to the open answer if one exists, else to the open question. -/
def parseQAGo (q a : String) : List String → List (String × String)
  | [] => flushPair q a
  | raw :: rest =>
    let line := trimStr raw
    if line = "" then parseQAGo q a rest
    else if isQLine line then flushPair q a ++ parseQAGo (qaMarkerText line) "" rest
    else if isALine line then parseQAGo q (qaMarkerText line) rest
    else if a ≠ "" then parseQAGo q (a ++ " " ++ line) rest
    else if q ≠ "" then parseQAGo (q ++ " " ++ line) a rest
    else parseQAGo q a rest

/-- `parseQA` from src/server/services/pdf.ts (identical in
src/unnamed/part_005). -/
def parseQA (lines : List String) : List (String × String) :=
  parseQAGo "" "" lines

/-- Printable-area geometry of a page: content may be placed while
`y + need ≤ bottom`; a fresh page starts its cursor at `top`. -/
structure PageGeom where
  top : Nat
  bottom : Nat
deriving DecidableEq

/-- The layout engine's cursor: how many pages exist so far, and the
vertical write position on the current (last) page. -/
structure LayoutState where
  pageCount : Nat
  y : Nat
deriving DecidableEq

/-- `ensureSpace(doc, px)`: `if (doc.y + px > bottom) doc.addPage()`. -/
def ensureSpace (g : PageGeom) (st : LayoutState) (px : Nat) : LayoutState :=
  if g.bottom < st.y + px then { pageCount := st.pageCount + 1, y := g.top } else st

/-- One content block: the height it reserves through `ensureSpace` and
the vertical advance its drawing performs. -/
structure Block where
  need : Nat
  advance : Nat
deriving DecidableEq

/-- Place one block: reserve space (breaking the page if needed), then
advance the cursor by the drawn height. -/
def placeBlock (g : PageGeom) (st : LayoutState) (b : Block) : LayoutState :=
  let st2 := ensureSpace g st b.need
  { st2 with y := st2.y + b.advance }

/-- The content pass: all blocks placed in order, starting on page 1 at
cursor `initY` (below the header band). -/
def contentPass (g : PageGeom) (initY : Nat) (blocks : List Block) : LayoutState :=
  blocks.foldl (placeBlock g) { pageCount := 1, y := initY }

/-- One stamped footer: which page, the total written into it, and the
left/right texts. -/
structure Footer where
  page : Nat
  total : Nat
  left : String
  right : String
deriving DecidableEq

/-- The footer loop: `for (i = start; i < start + totalPages; i++)`
switches to page `i` and stamps the generation date (left) and
`Page ${i - start + 1} of ${totalPages}` (right), with `totalPages`
read once from `bufferedPageRange()` after the content pass. -/
def footerPass (totalPages : Nat) (generatedOn : String) : List Footer :=
  (List.range totalPages).map (fun i =>
    { page := i + 1
      total := totalPages
      left := "Generated on " ++ generatedOn
      right := "Page " ++ toString (i + 1) ++ " of " ++ toString totalPages })

/-- Pages produced and footers stamped by one `textToPdfBuffer` call. -/
structure RenderedDoc where
  pages : Nat
  footers : List Footer
deriving DecidableEq

/-- The page/footer control flow of `textToPdfBuffer` in
src/server/services/pdf.ts: in Q&A mode the function ends the document
and returns right after drawing the Q&A blocks — before the footer
loop — so no footer is stamped; otherwise the footer loop stamps every
buffered page. -/
def textToPdfBufferFooterPass (forced : PdfMode) (lines : List String)
    (g : PageGeom) (initY : Nat) (blocks : List Block) (generatedOn : String) :
    RenderedDoc :=
  let qaMode := qaModeOf forced lines
  let n := (contentPass g initY blocks).pageCount
  if qaMode then { pages := n, footers := [] }
  else { pages := n, footers := footerPass n generatedOn }

/-- The page/footer control flow of the `textToPdfBuffer` revision in
src/unnamed/part_005: content is rendered in whichever mode, and the
footer loop then runs unconditionally over every buffered page. -/
def textToPdfBufferFooterPassV2 (forced : PdfMode) (lines : List String)
    (g : PageGeom) (initY : Nat) (blocks : List Block) (generatedOn : String) :
    RenderedDoc :=
  let _qaMode := qaModeOf forced lines
  let n := (contentPass g initY blocks).pageCount
  { pages := n, footers := footerPass n generatedOn }

/-! ## Helper lemmas -/

/-- The normalized role text `searchJobsUK` uses. -/
def normalizedQ (q0 : String) : String :=
  normalizeQuery (safeTrimD (some q0) "Software Engineer")

/-- The normalized display location `searchJobsUK` uses. -/
def normalizedLoc (loc0 : String) : String := safeTrimD (some loc0) "Worldwide"

theorem isRateLimitError_of_status429 (e : JsErrorObj)
    (h : firstStatus e = some 429) : isRateLimitError (some e) = true := by
  simp [isRateLimitError, h]

theorem isRateLimitError_of_keyword (e : JsErrorObj) (kw : String)
    (hkw : containsSub (lowerStr (msgText e)) kw = true)
    (hmem : kw = "rate limit" ∨ kw = "too many requests" ∨ kw = "quota") :
    isRateLimitError (some e) = true := by
  by_cases h : firstStatus e = some 429
  · simp [isRateLimitError, h]
  · rcases hmem with rfl | rfl | rfl <;> simp [isRateLimitError, h, hkw]

/-! ## Claim C3 — rate-limit classifier -/

/-- A JS error carrying `status: 500` alongside `statusCode: 429`: the
nullish-coalescing chain stops at the defined `status`, so the 429 in
`statusCode` is never consulted. -/
def c3Err : JsErrorObj :=
  { status := some 500, statusCode := some 429, message := some "boom" }

/-- C3 counterexample: an error carrying HTTP status 429 at the top
level (in `statusCode`) on which `isRateLimitError` returns `false`,
because the defined non-429 `status` field shadows it. -/
theorem C3_counterexample :
    c3Err.statusCode = some 429 ∧ isRateLimitError (some c3Err) = false := by
  decide

/-- C3 (amended): `isRateLimitError` is a pure predicate; it returns
true when the FIRST DEFINED field along the precedence
`status`, `statusCode`, `response.status`, `response.statusCode`
equals 429 (a top-level 429 in a later field is shadowed by an earlier
defined non-429 field), or when the message text — taken from
`message`, falling back to the `error` field when `message` is absent
or empty — case-insensitively contains "rate limit",
"too many requests" or "quota"; it returns false for null/undefined
input and whenever neither condition holds. -/
theorem C3_rate_limit_classifier :
    isRateLimitError none = false
    ∧ (∀ e : JsErrorObj, e.status = some 429 → isRateLimitError (some e) = true)
    ∧ (∀ e : JsErrorObj, e.status = none → e.statusCode = some 429 →
        isRateLimitError (some e) = true)
    ∧ (∀ (e : JsErrorObj) (r : JsResponse), e.status = none → e.statusCode = none →
        e.response = some r → r.status = some 429 → isRateLimitError (some e) = true)
    ∧ (∀ (e : JsErrorObj) (r : JsResponse), e.status = none → e.statusCode = none →
        e.response = some r → r.status = none → r.statusCode = some 429 →
        isRateLimitError (some e) = true)
    ∧ (∀ e : JsErrorObj, containsSub (lowerStr (msgText e)) "rate limit" = true →
        isRateLimitError (some e) = true)
    ∧ (∀ e : JsErrorObj, containsSub (lowerStr (msgText e)) "too many requests" = true →
        isRateLimitError (some e) = true)
    ∧ (∀ e : JsErrorObj, containsSub (lowerStr (msgText e)) "quota" = true →
        isRateLimitError (some e) = true)
    ∧ (∀ e : JsErrorObj, firstStatus e ≠ some 429 →
        containsSub (lowerStr (msgText e)) "rate limit" = false →
        containsSub (lowerStr (msgText e)) "too many requests" = false →
        containsSub (lowerStr (msgText e)) "quota" = false →
        isRateLimitError (some e) = false) := by
  refine ⟨rfl, ?_, ?_, ?_, ?_, ?_, ?_, ?_, ?_⟩
  · intro e h
    exact isRateLimitError_of_status429 e (by simp [firstStatus, h])
  · intro e h1 h2
    exact isRateLimitError_of_status429 e (by simp [firstStatus, h1, h2])
  · intro e r h1 h2 h3 h4
    exact isRateLimitError_of_status429 e (by simp [firstStatus, h1, h2, h3, h4])
  · intro e r h1 h2 h3 h4 h5
    exact isRateLimitError_of_status429 e (by simp [firstStatus, h1, h2, h3, h4, h5])
  · intro e h
    exact isRateLimitError_of_keyword e "rate limit" h (Or.inl rfl)
  · intro e h
    exact isRateLimitError_of_keyword e "too many requests" h (Or.inr (Or.inl rfl))
  · intro e h
    exact isRateLimitError_of_keyword e "quota" h (Or.inr (Or.inr rfl))
  · intro e h1 h2 h3 h4
    simp [isRateLimitError, h1, h2, h3, h4]

/-- C3 witness: the amended classifier characterization applied at
concrete errors. -/
theorem C3_rate_limit_classifier_witness :
    isRateLimitError (some { status := some 429 }) = true
    ∧ isRateLimitError (some { message := some "QUOTA exceeded" }) = true
    ∧ isRateLimitError (some { status := some 500, message := some "boom" }) = false := by
  obtain ⟨h0, h1, h2, h3, h4, h5, h6, h7, h8⟩ := C3_rate_limit_classifier
  exact ⟨h1 _ rfl, h7 _ (by decide),
    h8 _ (by decide) (by decide) (by decide) (by decide)⟩

/-! ## Claim C10 — a later `A:` line overwrites the accumulated answer -/

/-- C10: in Q&A parsing, an `A:` marker line ASSIGNS the answer
accumulator — whatever answer text was accumulated for the current pair
is silently discarded, not appended — so, when a question is followed
by two or more `A:` lines, the emitted answer is the last `A:` line's
text plus its subsequent continuation lines only.  The concrete
instance: a pair with answers "first" then "second" followed by a
continuation emits exactly the pair ("One", "second more"). -/
theorem C10_parseQA_last_answer_wins :
    (∀ (raw q a : String) (rest : List String),
      trimStr raw ≠ "" → isQLine (trimStr raw) = false → isALine (trimStr raw) = true →
      parseQAGo q a (raw :: rest) = parseQAGo q (qaMarkerText (trimStr raw)) rest)
    ∧ parseQA ["Q: One", "A: first", "A: second", "more"] = [("One", "second more")] := by
  constructor
  · intro raw q a rest h1 h2 h3
    simp [parseQAGo, h1, h2, h3]
  · decide

/-- C10 witness: the overwrite equation applied at a concrete `A:` line
with a non-empty previously accumulated answer. -/
theorem C10_parseQA_last_answer_wins_witness :
    parseQAGo "Qq" "old answer" ["A: x"] = parseQAGo "Qq" "x" [] := by
  have h := C10_parseQA_last_answer_wins.1 "A: x" "Qq" "old answer" []
    (by decide) (by decide) (by decide)
  simpa using h

/-! ## Claim C9 — the concurrency ceiling -/

/-- C9: along every scheduler run of a batch of `N` units under
concurrency limit `limit ≥ 1`, the number of in-flight (started,
unresolved) units never exceeds `limit`: a unit may start only while
strictly fewer than `limit` are active, so `active ≤ limit` is
invariant from the all-queued initial state. -/
theorem C9_concurrency_ceiling (N limit : Nat) (s : SchedState)
    (_hlim : 1 ≤ limit) (h : SchedReach limit (batchInit N) s) :
    s.active ≤ limit := by
  induction h with
  | refl => simp [batchInit]
  | tail _ step ih =>
    cases step with
    | start p a d hlt => exact hlt
    | finish p a d => simp at ih ⊢; omega

/-- C9 witness: the ceiling theorem applied to the initial state of a
5-item batch under limit 2. -/
theorem C9_concurrency_ceiling_witness : (batchInit 5).active ≤ 2 :=
  C9_concurrency_ceiling 5 2 (batchInit 5) (by decide) (SchedReach.refl _)

/-! ## Claim C8 — the footer pass -/

/-- Page geometry for the concrete three-page documents: printable
bottom 10, fresh pages restart the cursor at 0. -/
def c8Geom : PageGeom := { top := 0, bottom := 10 }

/-- Three blocks of reserved height 6 and advance 6: on `c8Geom` they
occupy exactly three pages. -/
def c8Blocks : List Block := [⟨6, 6⟩, ⟨6, 6⟩, ⟨6, 6⟩]

/-- A Q&A document (three `Q:` and three `A:` lines, so auto-detection
selects Q&A mode). -/
def c8QaLines : List String := ["Q: a", "A: b", "Q: c", "A: d", "Q: e", "A: f"]

/-- C8 counterexample: a Q&A-mode document whose content occupies three
pages, rendered by `textToPdfBuffer` of src/server/services/pdf.ts,
receives NO footers at all — the function ends the document before the
footer loop in Q&A mode — contradicting the claim that the footer pass
covers every produced page in both prose and Q&A rendering modes. -/
theorem C8_counterexample :
    qaModeOf PdfMode.auto c8QaLines = true
    ∧ textToPdfBufferFooterPass PdfMode.auto c8QaLines c8Geom 0 c8Blocks "2026-10-11"
        = { pages := 3, footers := [] } := by
  decide

/-- C8 (amended): only after all content blocks are placed does the
footer loop run, stamping every produced page `i` (1-based) with the
left-aligned generation date and the right-aligned "Page i of N", with
the same total N — read once from the buffered page range after
layout — on every page, and for a document occupying exactly 3 pages
the stamps read "Page 1 of 3", "Page 2 of 3", "Page 3 of 3"; this
holds for prose-mode documents in src/server/services/pdf.ts, and for
BOTH modes only in the src/unnamed/part_005 revision — the
src/server/services/pdf.ts Q&A branch returns before the footer loop
and stamps nothing. -/
theorem C8_footer_pass :
    (∀ (forced : PdfMode) (lines : List String) (g : PageGeom) (initY : Nat)
        (blocks : List Block) (generatedOn : String),
      qaModeOf forced lines = false →
      (textToPdfBufferFooterPass forced lines g initY blocks generatedOn).footers =
        footerPass (contentPass g initY blocks).pageCount generatedOn)
    ∧ (∀ (forced : PdfMode) (lines : List String) (g : PageGeom) (initY : Nat)
        (blocks : List Block) (generatedOn : String),
      qaModeOf forced lines = true →
      (textToPdfBufferFooterPass forced lines g initY blocks generatedOn).footers = [])
    ∧ (∀ (forced : PdfMode) (lines : List String) (g : PageGeom) (initY : Nat)
        (blocks : List Block) (generatedOn : String),
      (textToPdfBufferFooterPassV2 forced lines g initY blocks generatedOn).footers =
        footerPass (contentPass g initY blocks).pageCount generatedOn)
    ∧ (∀ (n : Nat) (generatedOn : String), (footerPass n generatedOn).length = n)
    ∧ (∀ (n i : Nat) (generatedOn : String), i < n →
      (footerPass n generatedOn)[i]? = some
        { page := i + 1
          total := n
          left := "Generated on " ++ generatedOn
          right := "Page " ++ toString (i + 1) ++ " of " ++ toString n })
    ∧ textToPdfBufferFooterPassV2 PdfMode.auto c8QaLines c8Geom 0 c8Blocks "2026-10-11"
        = { pages := 3
            footers :=
              [ { page := 1, total := 3, left := "Generated on 2026-10-11", right := "Page 1 of 3" }
              , { page := 2, total := 3, left := "Generated on 2026-10-11", right := "Page 2 of 3" }
              , { page := 3, total := 3, left := "Generated on 2026-10-11", right := "Page 3 of 3" } ] }
    ∧ textToPdfBufferFooterPass PdfMode.resume [] c8Geom 0 c8Blocks "2026-10-11"
        = { pages := 3
            footers :=
              [ { page := 1, total := 3, left := "Generated on 2026-10-11", right := "Page 1 of 3" }
              , { page := 2, total := 3, left := "Generated on 2026-10-11", right := "Page 2 of 3" }
              , { page := 3, total := 3, left := "Generated on 2026-10-11", right := "Page 3 of 3" } ] } := by
  refine ⟨?_, ?_, ?_, ?_, ?_, by decide, by decide⟩
  · intro forced lines g initY blocks generatedOn h
    simp [textToPdfBufferFooterPass, h]
  · intro forced lines g initY blocks generatedOn h
    simp [textToPdfBufferFooterPass, h]
  · intro forced lines g initY blocks generatedOn
    simp [textToPdfBufferFooterPassV2]
  · intro n generatedOn
    simp [footerPass]
  · intro n i generatedOn h
    simp [footerPass, List.getElem?_map, List.getElem?_range, h]

/-- C8 witness: the footer characterization applied at concrete
inputs — a forced-resume (prose) render of the three-page document and
the page-2 stamp of a three-page footer pass. -/
theorem C8_footer_pass_witness :
    (textToPdfBufferFooterPass PdfMode.resume [] c8Geom 0 c8Blocks "2026-10-11").footers =
      footerPass (contentPass c8Geom 0 c8Blocks).pageCount "2026-10-11"
    ∧ (footerPass 3 "2026-10-11")[1]? = some
        { page := 2, total := 3, left := "Generated on 2026-10-11", right := "Page 2 of 3" } := by
  obtain ⟨h1, h2, h3, h4, h5, h6, h7⟩ := C8_footer_pass
  exact ⟨h1 PdfMode.resume [] c8Geom 0 c8Blocks "2026-10-11" (by decide),
    h5 3 1 "2026-10-11" (by decide)⟩

/-! ## Claim C4 — rerank adapter fail-open -/

/-- A first concrete job hit. -/
def c4JobA : JobSearchItem :=
  { title := "Engineer", company := "Acme", location := "London"
    description := "desc a", url := "https://a.example/1" }

/-- A second concrete job hit. -/
def c4JobB : JobSearchItem :=
  { title := "Developer", company := "Globex", location := "Leeds"
    description := "desc b", url := "https://b.example/2" }

/-- A provider whose HTTP call rejects (network failure / non-2xx /
timeout): `axios.post` throws. -/
def c4FailingProvider : JinaReq → Except String (List RankResult) :=
  fun _ => .error "network down"

/-- C4 counterexample: with a configured key and two hits, a provider
call that throws is NOT caught anywhere in src/server/jina.ts — the
error propagates to the caller instead of the original list being
returned, contradicting "when the provider call fails in any way, the
output list is identical to the input list and no error is surfaced". -/
theorem C4_counterexample :
    rerankJobsWithJina (some "key") c4FailingProvider "q" [c4JobA, c4JobB]
      = Except.error "network down"
    ∧ rerankJobsWithJina (some "key") c4FailingProvider "q" [c4JobA, c4JobB]
      ≠ Except.ok [c4JobA, c4JobB] := by
  have h1 : rerankJobsWithJina (some "key") c4FailingProvider "q" [c4JobA, c4JobB]
      = Except.error "network down" := rfl
  refine ⟨h1, ?_⟩
  rw [h1]
  intro h
  exact Except.noConfusion h

/-- C4 (amended): the rerank adapter is fail-open for fewer than 2
hits, for missing configuration, and for a provider that returns zero
results — in each case the output is the input list itself and no error
is surfaced — but a provider call that THROWS is not caught: the error
propagates to the caller of `rerankJobsWithJina`. -/
theorem C4_rerank_fail_open :
    (∀ (key : Option String) (provider : JinaReq → Except String (List RankResult))
        (query : String) (jobs : List JobSearchItem),
      jobs.length ≤ 1 → rerankJobsWithJina key provider query jobs = .ok jobs)
    ∧ (∀ (provider : JinaReq → Except String (List RankResult))
        (query : String) (jobs : List JobSearchItem),
      rerankJobsWithJina none provider query jobs = .ok jobs)
    ∧ (∀ (key : Option String) (provider : JinaReq → Except String (List RankResult))
        (query : String) (jobs : List JobSearchItem),
      rerankWithJina key provider query (jobs.map jobDoc)
          (some (min 20 (jobs.map jobDoc).length)) = .ok [] →
      rerankJobsWithJina key provider query jobs = .ok jobs)
    ∧ (∀ (key : Option String) (provider : JinaReq → Except String (List RankResult))
        (query : String) (jobs : List JobSearchItem) (e : String),
      ¬ jobs.length ≤ 1 →
      rerankWithJina key provider query (jobs.map jobDoc)
          (some (min 20 (jobs.map jobDoc).length)) = .error e →
      rerankJobsWithJina key provider query jobs = .error e) := by
  refine ⟨?_, ?_, ?_, ?_⟩
  · intro key provider query jobs h
    simp [rerankJobsWithJina, h]
  · intro provider query jobs
    by_cases h : jobs.length ≤ 1 <;>
      simp [rerankJobsWithJina, rerankWithJina, h]
  · intro key provider query jobs h
    by_cases hlen : jobs.length ≤ 1
    · simp [rerankJobsWithJina, hlen]
    · simp only [List.length_map] at h
      simp [rerankJobsWithJina, hlen, h]
  · intro key provider query jobs e hlen h
    simp only [List.length_map] at h
    simp [rerankJobsWithJina, hlen, h]

/-- C4 witness: the fail-open cases and the propagation case applied at
concrete inputs. -/
theorem C4_rerank_fail_open_witness :
    rerankJobsWithJina (some "key") c4FailingProvider "q" [c4JobA] = .ok [c4JobA]
    ∧ rerankJobsWithJina none c4FailingProvider "q" [c4JobA, c4JobB] = .ok [c4JobA, c4JobB]
    ∧ rerankJobsWithJina (some "key") (fun _ => .ok []) "q" [c4JobA, c4JobB]
        = .ok [c4JobA, c4JobB]
    ∧ rerankJobsWithJina (some "key") c4FailingProvider "q2" [c4JobA, c4JobB]
        = .error "network down" := by
  obtain ⟨h1, h2, h3, h4⟩ := C4_rerank_fail_open
  exact ⟨h1 (some "key") c4FailingProvider "q" [c4JobA] (by decide),
    h2 c4FailingProvider "q" [c4JobA, c4JobB],
    h3 (some "key") (fun _ => .ok []) "q" [c4JobA, c4JobB] rfl,
    h4 (some "key") c4FailingProvider "q2" [c4JobA, c4JobB] "network down"
      (by decide) rfl⟩

/-! ## Claim C5 — merge and the selected flag -/

theorem mem_insertByMatchDesc (a x : JobMatchItem) (l : List JobMatchItem) :
    a ∈ insertByMatchDesc x l ↔ a = x ∨ a ∈ l := by
  induction l with
  | nil => simp [insertByMatchDesc]
  | cons y ys ih =>
    by_cases h : y.matchPercent < x.matchPercent
    · simp [insertByMatchDesc, h]
    · simp [insertByMatchDesc, h, ih]
      tauto

theorem mem_sortByMatchDesc (a : JobMatchItem) (l : List JobMatchItem) :
    a ∈ sortByMatchDesc l ↔ a ∈ l := by
  induction l with
  | nil => simp [sortByMatchDesc]
  | cons y ys ih =>
    simp only [sortByMatchDesc, List.foldr_cons] at *
    rw [mem_insertByMatchDesc, ih]
    simp

theorem lastWithId_eq_none (jobs : List JobMatchItem) (i : Nat)
    (h : ∀ p ∈ jobs, p.id ≠ i) : lastWithId jobs i = none := by
  induction jobs with
  | nil => rfl
  | cons j rest ih =>
    have hj : j.id ≠ i := h j (by simp)
    have hrest : lastWithId rest i = none := ih (fun p hp => h p (by simp [hp]))
    simp [lastWithId, hrest, hj]

theorem mergeCore_of_fresh (jobs next : List JobMatchItem)
    (h : ∀ n ∈ next, lastWithId jobs n.id = none) :
    mergeCore jobs next = next := by
  induction next with
  | nil => rfl
  | cons n rest ih =>
    have hn := h n (by simp)
    have hrest := ih (fun m hm => h m (by simp [hm]))
    simp only [mergeCore, List.map_cons] at *
    rw [hn] at *
    simp_all

/-- The previously displayed list of the C5 scenario: one item,
selected by the user. -/
def c5Base : JobMatchItem :=
  { id := 1, title := "Engineer", company := "Acme", location := "London"
    applyUrl := "https://a.example/1", description := "desc"
    matchPercent := 50, matchingSkills := [], missingSkills := []
    strengths := [], gaps := [], analysis := "", recommendedKeywords := []
    salaryRange := "N/A", seniorityFit := .average, selected := true }

/-- The same job, as handed to `matchOne` by the refresh. -/
def c5Job : SearchResult :=
  { title := "Engineer", company := "Acme", location := "London"
    description := "desc", url := "https://a.example/1" }

/-- The refresh's scoring response for that job (a higher score). -/
def c5Match : MatchResult := { matchPercentage := some 70 }

/-- What the refresh produces: `matchOne` draws a FRESH uid — modelled
by the next counter value 2, distinct from every previously generated
id — so the re-scored item does not carry id 1. -/
def c5Refreshed : JobMatchItem := matchOne 2 c5Job (.ok c5Match) .okResponse

/-- C5 counterexample: the displayed item is selected, the re-run scores
the very same job successfully, yet the merged list is just the fresh
item with `selected = false` — the selection did not survive the
re-run, because the merge key is a fresh `uid()` drawn on every
`matchOne` call, not an id stable across runs. -/
theorem C5_counterexample :
    c5Base.selected = true
    ∧ c5Refreshed.id ≠ c5Base.id
    ∧ mergeKeepSelected [c5Base] [c5Refreshed] = [c5Refreshed]
    ∧ c5Refreshed.selected = false := by
  decide

/-- C5 (amended): `mergeKeepSelected` preserves an item's `selected`
flag exactly through id identity — an incoming item whose id matches a
displayed item adopts that item's flag, and an id absent from the
displayed list (`lastWithId … = none`, which holds whenever no displayed
item carries it) leaves the incoming item unchanged, so the merge of an
all-fresh result list is just that list re-sorted; since `matchOne`
draws a fresh `uid()` and constructs `selected := false` on every call,
a refresh produces only fresh-id unselected items and the previous
selection is not preserved across re-runs. -/
theorem C5_merge_selection :
    (∀ (jobs next : List JobMatchItem) (n prev : JobMatchItem),
      n ∈ next → lastWithId jobs n.id = some prev →
      { n with selected := prev.selected } ∈ mergeKeepSelected jobs next)
    ∧ (∀ (jobs : List JobMatchItem) (i : Nat),
      (∀ p ∈ jobs, p.id ≠ i) → lastWithId jobs i = none)
    ∧ (∀ (jobs next : List JobMatchItem),
      (∀ n ∈ next, lastWithId jobs n.id = none) →
      mergeKeepSelected jobs next = sortByMatchDesc next)
    ∧ (∀ (newId : Nat) (job : SearchResult)
        (outcome : Except (Option String) MatchResult) (probe : FetchProbe),
      (matchOne newId job outcome probe).selected = false) := by
  refine ⟨?_, lastWithId_eq_none, ?_, ?_⟩
  · intro jobs next n prev hn hprev
    rw [mergeKeepSelected, mem_sortByMatchDesc, mergeCore]
    have h := List.mem_map_of_mem
      (fun j => match lastWithId jobs j.id with
        | some p => { j with selected := p.selected }
        | none => j) hn
    simpa [hprev] using h
  · intro jobs next h
    rw [mergeKeepSelected, mergeCore_of_fresh jobs next h]
  · intro newId job outcome probe
    cases outcome <;> rfl

/-- C5 witness: the amended merge behaviour applied at concrete lists —
a matching id adopts the stored `selected = true`, a fresh id is
reported absent, and the all-fresh refresh merge is the sorted fresh
list. -/
theorem C5_merge_selection_witness :
    ({ matchOne 1 c5Job (.ok c5Match) .okResponse with selected := c5Base.selected }
      ∈ mergeKeepSelected [c5Base] [matchOne 1 c5Job (.ok c5Match) .okResponse])
    ∧ lastWithId [c5Base] 2 = none
    ∧ mergeKeepSelected [c5Base] [c5Refreshed] = sortByMatchDesc [c5Refreshed]
    ∧ (matchOne 2 c5Job (.ok c5Match) .okResponse).selected = false := by
  obtain ⟨h1, h2, h3, h4⟩ := C5_merge_selection
  exact ⟨h1 [c5Base] [matchOne 1 c5Job (.ok c5Match) .okResponse]
      (matchOne 1 c5Job (.ok c5Match) .okResponse) c5Base (by simp) (by decide),
    h2 [c5Base] 2 (by decide),
    h3 [c5Base] [c5Refreshed] (by decide),
    h4 2 c5Job (.ok c5Match) .okResponse⟩

/-! ## Claim C7 — scoring failures degrade, never kill the run -/

/-- C7: every failed per-item scoring call (whatever the original error
message and whatever the fallback plain-request probe observed) yields a
degraded `JobMatchItem` with `matchPercent = 0`, empty
matchingSkills/missingSkills/strengths/gaps, and an `analysis` of
"Match failed: " followed by the `shortenFail`-truncated reason — which
keeps at most 200 characters of the trimmed reason (appending an
ellipsis character when it truncates, and "Unknown" for an empty
reason); and the scoring loop is total: it emits exactly one item per
job, so the user-facing list has the expected length. -/
theorem C7_degraded_scoring_failure :
    (∀ (newId : Nat) (job : SearchResult) (errMsg : Option String) (probe : FetchProbe),
      (matchOne newId job (.error errMsg) probe).matchPercent = 0
      ∧ (matchOne newId job (.error errMsg) probe).matchingSkills = []
      ∧ (matchOne newId job (.error errMsg) probe).missingSkills = []
      ∧ (matchOne newId job (.error errMsg) probe).strengths = []
      ∧ (matchOne newId job (.error errMsg) probe).gaps = []
      ∧ (matchOne newId job (.error errMsg) probe).analysis =
          "Match failed: " ++ shortenFail (failReason errMsg probe))
    ∧ (∀ s : String,
      lenS (takeS (trimStr s) 200) ≤ 200
      ∧ (shortenFail s = "Unknown" ∨ shortenFail s = trimStr s
          ∨ shortenFail s = takeS (trimStr s) 200 ++ "…"))
    ∧ (∀ (firstId : Nat)
        (work : List (SearchResult × Except (Option String) MatchResult × FetchProbe)),
      (matchAll firstId work).length = work.length) := by
  refine ⟨?_, ?_, ?_⟩
  · intro newId job errMsg probe
    exact ⟨rfl, rfl, rfl, rfl, rfl, rfl⟩
  · intro s
    constructor
    · simp [lenS, takeS, List.length_take]
    · by_cases h1 : trimStr s = ""
      · left
        simp [shortenFail, h1]
      · by_cases h2 : 200 < lenS (trimStr s)
        · right; right
          simp [shortenFail, h1, h2]
        · right; left
          simp [shortenFail, h1, h2]
  · intro firstId work
    induction work generalizing firstId with
    | nil => rfl
    | cons head rest ih =>
      obtain ⟨job, outcome, probe⟩ := head
      simp [matchAll, ih]

/-! ## Batch-runner lemmas (claims C1, C2) -/

theorem batchSSEGo_length {T R : Type} (handler : T → Nat → Nat → Except JsErrorObj R)
    (retries : Nat) (k : Nat) (items : List T) :
    (batchProcessWithSSEGo handler retries k items).length = items.length := by
  induction items generalizing k with
  | nil => rfl
  | cons item rest ih => simp [batchProcessWithSSEGo, ih]

theorem batchSSEGo_getElem {T R : Type} (handler : T → Nat → Nat → Except JsErrorObj R)
    (retries : Nat) (k i : Nat) (items : List T) :
    (batchProcessWithSSEGo handler retries k items)[i]? =
      (items[i]?).map (fun it => slotOf (pRetryModel (handler it (k + i)) retries)) := by
  induction items generalizing k i with
  | nil => simp [batchProcessWithSSEGo]
  | cons item rest ih =>
    cases i with
    | zero => simp [batchProcessWithSSEGo]
    | succ n =>
      have harith : k + 1 + n = k + (n + 1) := by omega
      simp [batchProcessWithSSEGo, ih (k + 1) n, harith]

theorem batchGo_ok {T R : Type} (handler : T → Nat → Nat → Except JsErrorObj R)
    (retries : Nat) (k : Nat) (items : List T) (rs : List R)
    (h : batchProcessGo handler retries k items = .ok rs) :
    rs.length = items.length ∧
    ∀ (i : Nat) (it : T), items[i]? = some it →
      ∃ r, rs[i]? = some r ∧ pRetryModel (handler it (k + i)) retries = .ok r := by
  induction items generalizing k rs with
  | nil =>
    simp [batchProcessGo] at h
    subst h
    exact ⟨rfl, by intro i it hit; simp at hit⟩
  | cons item rest ih =>
    cases hp : pRetryModel (handler item k) retries with
    | error e => simp [batchProcessGo, hp] at h
    | ok r =>
      cases hb : batchProcessGo handler retries (k + 1) rest with
      | error e => simp [batchProcessGo, hp, hb] at h
      | ok rs' =>
        simp [batchProcessGo, hp, hb] at h
        subst h
        obtain ⟨ihlen, ihget⟩ := ih (k + 1) rs' hb
        refine ⟨by simp [ihlen], ?_⟩
        intro i it hit
        cases i with
        | zero =>
          simp at hit
          subst hit
          exact ⟨r, by simp, by simpa using hp⟩
        | succ n =>
          simp at hit
          obtain ⟨r', hr', hp'⟩ := ihget n it hit
          have harith : k + 1 + n = k + (n + 1) := by omega
          exact ⟨r', by simpa using hr', by rw [← harith]; exact hp'⟩

theorem pRetryGo_ok {R : Type} (f : Nat → Except JsErrorObj R) (fuel : Nat) :
    ∀ (attempt : Nat) (r : R), pRetryGo f fuel attempt = .ok r →
    ∃ a, attempt ≤ a ∧ a ≤ attempt + fuel ∧ f a = .ok r ∧
      ∀ b, attempt ≤ b → b < a →
        ∃ e, f b = .error e ∧ isRateLimitError (some e) = true := by
  induction fuel with
  | zero =>
    intro attempt r h
    cases hf : f attempt with
    | ok r' =>
      simp [pRetryGo, hf] at h
      subst h
      exact ⟨attempt, le_refl _, by omega, hf, fun b hb1 hb2 => by omega⟩
    | error e => simp [pRetryGo, hf] at h
  | succ fuel ih =>
    intro attempt r h
    cases hf : f attempt with
    | ok r' =>
      simp [pRetryGo, hf] at h
      subst h
      exact ⟨attempt, le_refl _, by omega, hf, fun b hb1 hb2 => by omega⟩
    | error e =>
      simp [pRetryGo, hf] at h
      cases hrl : isRateLimitError (some e) with
      | false => simp [hrl] at h
      | true =>
        simp [hrl] at h
        obtain ⟨a, ha1, ha2, ha3, ha4⟩ := ih (attempt + 1) r h
        refine ⟨a, by omega, by omega, ha3, ?_⟩
        intro b hb1 hb2
        by_cases hbe : b = attempt
        · exact ⟨e, hbe ▸ hf, hrl⟩
        · exact ha4 b (by omega) hb2

theorem progressTraceGo_eq (total : Nat) (l : List Nat) :
    ∀ d : Nat, progressTraceGo total d l =
      (List.range l.length).map (fun k => (d + k + 1, total)) := by
  induction l with
  | nil => intro d; rfl
  | cons x rest ih =>
    intro d
    rw [progressTraceGo, ih (d + 1)]
    simp only [List.length_cons, List.range_succ_eq_map, List.map_cons, List.map_map,
      List.cons.injEq]
    refine ⟨by simp, ?_⟩
    apply List.map_congr_left
    intro k _
    simp only [Function.comp_apply, Prod.mk.injEq]
    exact ⟨by omega, trivial⟩

/-! ## Claim C1 — batch results: length and index placement -/

/-- C1: for every input list and handler, the lenient (SSE) runner
returns a list of exactly `items.length` slots, the slot at index `i`
being the retried handler's success value for item `i` or its captured
`{ok: false, error}` record; and whenever the strict runner completes
without propagating an error, the returned list also has length
`items.length`, with the retried handler's success value for item `i`
at index `i`. -/
theorem C1_batch_result_shape :
    (∀ (T R : Type) (items : List T) (handler : T → Nat → Nat → Except JsErrorObj R)
        (retries : Nat),
      (batchProcessWithSSE items handler retries).length = items.length)
    ∧ (∀ (T R : Type) (items : List T) (handler : T → Nat → Nat → Except JsErrorObj R)
        (retries : Nat) (i : Nat),
      (batchProcessWithSSE items handler retries)[i]? =
        (items[i]?).map (fun it => slotOf (pRetryModel (handler it i) retries)))
    ∧ (∀ (T R : Type) (items : List T) (handler : T → Nat → Nat → Except JsErrorObj R)
        (retries : Nat) (rs : List R),
      batchProcess items handler retries = .ok rs →
      rs.length = items.length ∧
      ∀ (i : Nat) (it : T), items[i]? = some it →
        ∃ r, rs[i]? = some r ∧ pRetryModel (handler it i) retries = .ok r) := by
  refine ⟨?_, ?_, ?_⟩
  · intro T R items handler retries
    exact batchSSEGo_length handler retries 0 items
  · intro T R items handler retries i
    have h := batchSSEGo_getElem handler retries 0 i items
    simpa using h
  · intro T R items handler retries rs h
    have hg := batchGo_ok handler retries 0 items rs h
    refine ⟨hg.1, ?_⟩
    intro i it hit
    have := hg.2 i it hit
    simpa using this

/-- A concrete always-succeeding handler for the C1 witness. -/
def c1Handler (item index _attempt : Nat) : Except JsErrorObj Nat :=
  .ok (item + index)

/-- C1 witness: the shape theorem applied to a concrete two-item batch
(both the lenient slot equation and the strict-mode success case). -/
theorem C1_batch_result_shape_witness :
    (batchProcessWithSSE [5, 7] c1Handler 0).length = 2
    ∧ (batchProcessWithSSE [5, 7] c1Handler 0)[1]? =
        some (slotOf (pRetryModel (c1Handler 7 1) 0))
    ∧ ([5, 8] : List Nat).length = ([5, 7] : List Nat).length
    ∧ ∃ r, (([5, 8] : List Nat))[0]? = some r ∧ pRetryModel (c1Handler 5 0) 0 = .ok r := by
  obtain ⟨h1, h2, h3⟩ := C1_batch_result_shape
  have hs := h3 Nat Nat [5, 7] c1Handler 0 [5, 8] rfl
  exact ⟨h1 Nat Nat [5, 7] c1Handler 0, by simpa using h2 Nat Nat [5, 7] c1Handler 0 1,
    hs.1, hs.2 0 5 rfl⟩

/-! ## Claim C2 — retry policy, abort on non-retryable, concrete scenario -/

/-- The transient error of the C2 scenario: a 429 with the
"429 Too Many Requests" message. -/
def err429 : JsErrorObj := { status := some 429, message := some "429 Too Many Requests" }

/-- A non-retryable (non-rate-limit) error. -/
def errPlain : JsErrorObj := { status := some 500, message := some "boom" }

/-- The C2 scenario handler for a batch of 5 items: the unit of work at
index 2 fails with a 429 on its first two attempts and succeeds on the
third; every other unit succeeds immediately; the success value for
index `i` is `100 + i`. -/
def c2Handler (_item index attempt : Nat) : Except JsErrorObj Nat :=
  if index = 2 ∧ attempt < 2 then .error err429 else .ok (100 + index)

/-- An always-failing non-retryable unit of work, for the witness. -/
def c2FailHandler (_item _index _attempt : Nat) : Except JsErrorObj Nat :=
  .error errPlain

/-- C2: (1) a unit of work whose failure is not classified as a
rate-limit error is not retried — the error propagates at once; (2) any
success of the retry loop was reached within the configured budget
(`a ≤ retries` extra attempts) and every preceding attempt failed with
a rate-limit-classified error; (3) in strict mode, an item whose retry
loop ends in an error aborts the batch: `batchProcess` cannot return a
success; (4) the concrete scenario — 5 items, retries=3, index 2
failing twice with "429 Too Many Requests" then succeeding — ends with
the success value 102 at index 2 (and every other success at its
index); (5) `onProgress` fires exactly 5 times with `done` strictly
increasing 1,2,3,4,5 against the fixed total 5, whatever the completion
order. -/
theorem C2_retry_policy :
    (∀ (R : Type) (f : Nat → Except JsErrorObj R) (retries : Nat) (e : JsErrorObj),
      f 0 = .error e → isRateLimitError (some e) = false →
      pRetryModel f retries = .error e)
    ∧ (∀ (R : Type) (f : Nat → Except JsErrorObj R) (retries : Nat) (r : R),
      pRetryModel f retries = .ok r →
      ∃ a, a ≤ retries ∧ f a = .ok r ∧
        ∀ b, b < a → ∃ e, f b = .error e ∧ isRateLimitError (some e) = true)
    ∧ (∀ (T R : Type) (items : List T) (handler : T → Nat → Nat → Except JsErrorObj R)
        (retries : Nat) (i : Nat) (it : T) (e : JsErrorObj),
      items[i]? = some it →
      pRetryModel (handler it i) retries = .error e →
      ∀ rs : List R, batchProcess items handler retries ≠ .ok rs)
    ∧ batchProcess [0, 1, 2, 3, 4] c2Handler 3 = .ok [100, 101, 102, 103, 104]
    ∧ (∀ completions : List Nat, completions.length = 5 →
      progressTrace 5 completions = [(1, 5), (2, 5), (3, 5), (4, 5), (5, 5)]) := by
  refine ⟨?_, ?_, ?_, rfl, ?_⟩
  · intro R f retries e hf hrl
    cases retries with
    | zero => simp [pRetryModel, pRetryGo, hf]
    | succ n => simp [pRetryModel, pRetryGo, hf, hrl]
  · intro R f retries r h
    obtain ⟨a, ha1, ha2, ha3, ha4⟩ := pRetryGo_ok f retries 0 r h
    exact ⟨a, by omega, ha3, fun b hb => ha4 b (by omega) hb⟩
  · intro T R items handler retries i it e hit hp rs hok
    obtain ⟨_, hget⟩ := batchGo_ok handler retries 0 items rs hok
    obtain ⟨r, _, hpr⟩ := hget i it hit
    rw [show (0 : Nat) + i = i by omega] at hpr
    rw [hp] at hpr
    exact Except.noConfusion hpr
  · intro completions h
    rw [progressTrace, progressTraceGo_eq, h]
    decide

/-- C2 witness: the retry-policy theorem applied at concrete inputs — a
non-retryable failure aborts without retry, the scenario's index-2 unit
succeeds within budget after rate-limit failures only, a failing item
makes the strict batch unable to succeed, and a concrete 5-element
completion order yields the strictly increasing progress payloads. -/
theorem C2_retry_policy_witness :
    pRetryModel (c2FailHandler 0 0) 3 = .error errPlain
    ∧ (∃ a, a ≤ 3 ∧ c2Handler 2 2 a = .ok 102 ∧
        ∀ b, b < a → ∃ e, c2Handler 2 2 b = .error e ∧ isRateLimitError (some e) = true)
    ∧ batchProcess [(0 : Nat)] c2FailHandler 3 ≠ .ok [0]
    ∧ progressTrace 5 [9, 9, 9, 9, 9] = [(1, 5), (2, 5), (3, 5), (4, 5), (5, 5)] := by
  obtain ⟨h1, h2, h3, h4, h5⟩ := C2_retry_policy
  exact ⟨h1 Nat (c2FailHandler 0 0) 3 errPlain rfl (by decide),
    h2 Nat (c2Handler 2 2) 3 102 rfl,
    h3 Nat Nat [0] c2FailHandler 3 0 0 errPlain rfl rfl [0],
    h5 [9, 9, 9, 9, 9] rfl⟩

/-! ## Claim C6 — aggregator: fallback, dedup, cap -/

/-- The dedup invariant threaded through the accept loops: accumulated
URLs are pairwise distinct, and every accumulated URL has been recorded
in the `seen` set. -/
def seenInv (seen : List String) (acc : List JobSearchItem) : Prop :=
  (acc.map (fun j => j.url)).Nodup ∧ ∀ j ∈ acc, j.url ∈ seen

theorem seenInv_push (seen : List String) (acc : List JobSearchItem)
    (item : JobSearchItem) (hinv : seenInv seen acc) (hnew : item.url ∉ seen) :
    seenInv (item.url :: seen) (acc ++ [item]) := by
  obtain ⟨hnd, hsub⟩ := hinv
  constructor
  · rw [List.map_append]
    refine List.Nodup.append hnd (by simp) ?_
    simp only [List.map_cons, List.map_nil]
    rw [List.disjoint_singleton]
    simp only [List.mem_map]
    rintro ⟨j, hj, hurl⟩
    exact hnew (hurl ▸ hsub j hj)
  · intro j hj
    rcases List.mem_append.mp hj with hj | hj
    · exact List.mem_cons_of_mem _ (hsub j hj)
    · simp at hj
      subst hj
      exact List.mem_cons_self _ _

theorem collectStrict_inv (rule : SiteRule) (loc : String) (hits : List RawHit) :
    ∀ (seen : List String) (acc : List JobSearchItem), seenInv seen acc →
      seenInv (collectStrict rule loc hits seen acc).1
        (collectStrict rule loc hits seen acc).2 := by
  induction hits with
  | nil => intro seen acc h; exact h
  | cons hit rest ih =>
    intro seen acc h
    simp only [collectStrict]
    by_cases h1 : trimStr hit.link = ""
    · rw [if_pos h1]
      exact ih seen acc h
    · rw [if_neg h1]
      by_cases hm : trimStr hit.link ∈ seen
      · rw [if_pos (by simpa using hm)]
        exact ih seen acc h
      · rw [if_neg (by simpa using hm)]
        by_cases h3 : looksLikeJobPosting hit rule
        · rw [if_pos h3]
          exact ih _ _ (seenInv_push seen acc (mkJobItem loc (trimStr hit.link) hit) h hm)
        · rw [if_neg h3]
          exact ih seen acc h

theorem collectFallback_inv (loc : String) (hits : List RawHit) :
    ∀ (seen : List String) (acc : List JobSearchItem), seenInv seen acc →
      seenInv (collectFallback loc hits seen acc).1
        (collectFallback loc hits seen acc).2 := by
  induction hits with
  | nil => intro seen acc h; exact h
  | cons hit rest ih =>
    intro seen acc h
    simp only [collectFallback]
    by_cases h1 : trimStr hit.link = ""
    · rw [if_pos h1]
      exact ih seen acc h
    · rw [if_neg h1]
      by_cases hm : trimStr hit.link ∈ seen
      · rw [if_pos (by simpa using hm)]
        exact ih seen acc h
      · rw [if_neg (by simpa using hm)]
        exact ih _ _ (seenInv_push seen acc (mkJobItem loc (trimStr hit.link) hit) h hm)

theorem strictPassGo_inv (responses : String → List RawHit) (q loc : String)
    (rules : List SiteRule) :
    ∀ (seen : List String) (acc : List JobSearchItem), seenInv seen acc →
      seenInv (strictPassGo responses q loc rules seen acc).1
        (strictPassGo responses q loc rules seen acc).2 := by
  induction rules with
  | nil => intro seen acc h; exact h
  | cons rule rest ih =>
    intro seen acc h
    simp only [strictPassGo]
    exact ih _ _ (collectStrict_inv rule loc _ seen acc h)

theorem fallbackPassGo_inv (responses : String → List RawHit) (q loc : String)
    (rules : List SiteRule) :
    ∀ (seen : List String) (acc : List JobSearchItem), seenInv seen acc →
      seenInv (fallbackPassGo responses q loc rules seen acc).1
        (fallbackPassGo responses q loc rules seen acc).2 := by
  induction rules with
  | nil => intro seen acc h; exact h
  | cons rule rest ih =>
    intro seen acc h
    simp only [fallbackPassGo]
    exact ih _ _ (collectFallback_inv loc _ seen acc h)

/-- C6: (1) when the strict pass accepts zero hits across all rules,
the output is the fallback pass — one looser query per rule, all fresh
hits accepted without path-token filtering — capped at 40; (2) when the
strict pass accepts anything, the output is just the strict results
capped at 40 (no fallback); (3) the output never contains two items
with the same URL string; (4) the output has at most 40 items; (5, 6)
first occurrence wins: a hit whose (trimmed) link was already seen is
skipped outright by both accept loops, leaving the earlier accepted
item in place. -/
theorem C6_search_aggregator :
    (∀ (responses : String → List RawHit) (q0 loc0 : String),
      (strictResults responses (normalizedQ q0) (normalizedLoc loc0)).2 = [] →
      searchJobsUKCore responses q0 loc0 =
        ((fallbackPassGo responses (normalizedQ q0) (normalizedLoc loc0) UK_SITES
          (strictResults responses (normalizedQ q0) (normalizedLoc loc0)).1 []).2).take 40)
    ∧ (∀ (responses : String → List RawHit) (q0 loc0 : String),
      (strictResults responses (normalizedQ q0) (normalizedLoc loc0)).2 ≠ [] →
      searchJobsUKCore responses q0 loc0 =
        ((strictResults responses (normalizedQ q0) (normalizedLoc loc0)).2).take 40)
    ∧ (∀ (responses : String → List RawHit) (q0 loc0 : String),
      ((searchJobsUKCore responses q0 loc0).map (fun j => j.url)).Nodup)
    ∧ (∀ (responses : String → List RawHit) (q0 loc0 : String),
      (searchJobsUKCore responses q0 loc0).length ≤ 40)
    ∧ (∀ (rule : SiteRule) (loc : String) (h : RawHit) (rest : List RawHit)
        (seen : List String) (acc : List JobSearchItem),
      trimStr h.link ∈ seen →
      collectStrict rule loc (h :: rest) seen acc = collectStrict rule loc rest seen acc)
    ∧ (∀ (loc : String) (h : RawHit) (rest : List RawHit)
        (seen : List String) (acc : List JobSearchItem),
      trimStr h.link ∈ seen →
      collectFallback loc (h :: rest) seen acc = collectFallback loc rest seen acc) := by
  have hcore : ∀ (responses : String → List RawHit) (q0 loc0 : String),
      seenInv
        (if (strictResults responses (normalizedQ q0) (normalizedLoc loc0)).2.length = 0
          then (fallbackPassGo responses (normalizedQ q0) (normalizedLoc loc0) UK_SITES
            (strictResults responses (normalizedQ q0) (normalizedLoc loc0)).1
            (strictResults responses (normalizedQ q0) (normalizedLoc loc0)).2).1
          else (strictResults responses (normalizedQ q0) (normalizedLoc loc0)).1)
        (if (strictResults responses (normalizedQ q0) (normalizedLoc loc0)).2.length = 0
          then (fallbackPassGo responses (normalizedQ q0) (normalizedLoc loc0) UK_SITES
            (strictResults responses (normalizedQ q0) (normalizedLoc loc0)).1
            (strictResults responses (normalizedQ q0) (normalizedLoc loc0)).2).2
          else (strictResults responses (normalizedQ q0) (normalizedLoc loc0)).2) := by
    intro responses q0 loc0
    have hs : seenInv (strictResults responses (normalizedQ q0) (normalizedLoc loc0)).1
        (strictResults responses (normalizedQ q0) (normalizedLoc loc0)).2 :=
      strictPassGo_inv responses _ _ UK_SITES [] [] ⟨by simp, by simp⟩
    by_cases hz :
        (strictResults responses (normalizedQ q0) (normalizedLoc loc0)).2.length = 0
    · rw [if_pos hz, if_pos hz]
      exact fallbackPassGo_inv responses _ _ UK_SITES _ _ hs
    · rw [if_neg hz, if_neg hz]
      exact hs
  have hcore_eq : ∀ (responses : String → List RawHit) (q0 loc0 : String),
      searchJobsUKCore responses q0 loc0 =
        (if (strictResults responses (normalizedQ q0) (normalizedLoc loc0)).2.length = 0
          then (fallbackPassGo responses (normalizedQ q0) (normalizedLoc loc0) UK_SITES
            (strictResults responses (normalizedQ q0) (normalizedLoc loc0)).1
            (strictResults responses (normalizedQ q0) (normalizedLoc loc0)).2).2
          else (strictResults responses (normalizedQ q0) (normalizedLoc loc0)).2).take 40 := by
    intro responses q0 loc0
    rfl
  refine ⟨?_, ?_, ?_, ?_, ?_, ?_⟩
  · intro responses q0 loc0 h
    rw [hcore_eq responses q0 loc0]
    rw [if_pos (by simp [h]), h]
  · intro responses q0 loc0 h
    rw [hcore_eq responses q0 loc0]
    rw [if_neg (by simpa [List.length_eq_zero] using h)]
  · intro responses q0 loc0
    rw [hcore_eq responses q0 loc0]
    rw [List.map_take]
    exact List.Nodup.sublist (List.take_sublist _ _) (hcore responses q0 loc0).1
  · intro responses q0 loc0
    rw [hcore_eq responses q0 loc0]
    exact List.length_take_le _ _
  · intro rule loc h rest seen acc hmem
    simp only [collectStrict]
    by_cases h1 : trimStr h.link = ""
    · rw [if_pos h1]
    · rw [if_neg h1, if_pos (by simpa using hmem)]
  · intro loc h rest seen acc hmem
    simp only [collectFallback]
    by_cases h1 : trimStr h.link = ""
    · rw [if_pos h1]
    · rw [if_neg h1, if_pos (by simpa using hmem)]

/-- A provider returning no organic hits for any query. -/
def c6EmptyResponses : String → List RawHit := fun _ => []

/-- A concrete uk.indeed.com job-posting hit. -/
def c6IndeedHit : RawHit :=
  { link := "https://uk.indeed.com/viewjob?jk=1"
    linkUrl := some { host := "uk.indeed.com", pathname := "/viewjob", search := "?jk=1" }
    title := some "Software Engineer - Acme"
    snippet := some "Great role" }

/-- A provider returning that single hit for every query. -/
def c6OneResponses : String → List RawHit := fun _ => [c6IndeedHit]

/-- A concrete rule for exercising the duplicate-skip equations. -/
def c6Rule : SiteRule :=
  { base := "https://uk.indeed.com", host := "uk.indeed.com"
    includeAnyInUrl := ["viewjob"], excludeInUrl := [] }

/-- C6 witness: the aggregator equations applied at concrete
providers — an all-empty strict pass routes through the fallback pass,
a successful strict pass skips it, and both accept loops drop an
already-seen link. -/
theorem C6_search_aggregator_witness :
    searchJobsUKCore c6EmptyResponses "software engineer" "London" =
      ((fallbackPassGo c6EmptyResponses (normalizedQ "software engineer")
        (normalizedLoc "London") UK_SITES
        (strictResults c6EmptyResponses (normalizedQ "software engineer")
          (normalizedLoc "London")).1 []).2).take 40
    ∧ searchJobsUKCore c6OneResponses "software engineer" "London" =
      ((strictResults c6OneResponses (normalizedQ "software engineer")
        (normalizedLoc "London")).2).take 40
    ∧ collectStrict c6Rule "London" [c6IndeedHit]
        ["https://uk.indeed.com/viewjob?jk=1"] [] =
      collectStrict c6Rule "London" [] ["https://uk.indeed.com/viewjob?jk=1"] []
    ∧ collectFallback "London" [c6IndeedHit]
        ["https://uk.indeed.com/viewjob?jk=1"] [] =
      collectFallback "London" [] ["https://uk.indeed.com/viewjob?jk=1"] [] := by
  obtain ⟨h1, h2, h3, h4, h5, h6⟩ := C6_search_aggregator
  exact ⟨h1 c6EmptyResponses "software engineer" "London" rfl,
    h2 c6OneResponses "software engineer" "London" (by decide),
    h5 c6Rule "London" c6IndeedHit [] ["https://uk.indeed.com/viewjob?jk=1"] [] (by decide),
    h6 "London" c6IndeedHit [] ["https://uk.indeed.com/viewjob?jk=1"] [] (by decide)⟩
